import Mathlib

/-!
Verification development for the options-engine repository.

Shallow embedding of the three source files:
  * `engine.py` — the multi-trade Opening Range Breakout (ORB) scanner
    (`atr`, `analyze_orb` and its per-candle scan loop);
  * `engine_nse.py` — `calculate_rsi` and the PCR-based `analyze_symbol`;
  * `engine_quickfix.py` — the indicator-based `decision` function.

Prices are modelled as rationals (the source works with Python floats but
every claim under verification concerns exact threshold comparisons and
control flow, not float rounding).  External fetches (Yahoo/NSE/TwelveData,
VIX, previous-day levels, option-chain strike selection) are I/O
collaborators; their results enter the embedded functions as parameters,
holding `Option` values where the source can receive `None`.
-/

/-- Python's `round` to an integer: round half to even (banker's rounding). -/
def roundHalfEven (x : ℚ) : ℤ :=
  let f := ⌊x⌋
  let r := x - (f : ℚ)
  if r < 1/2 then f
  else if 1/2 < r then f + 1
  else if f % 2 = 0 then f else f + 1

/-- Python's `round(x, 2)`. -/
def round2 (x : ℚ) : ℚ :=
  (roundHalfEven (x * 100) : ℚ) / 100

/-- Two-digit zero-padded decimal part. -/
def pad2 (n : ℕ) : String :=
  if n < 10 then "0" ++ toString n else toString n

/-- Python's fixed-point formatting `f"{x:.2f}"`. -/
def fmt2 (x : ℚ) : String :=
  let n := roundHalfEven (x * 100)
  let sign := if n < 0 then "-" else ""
  let m := n.natAbs
  sign ++ toString (m / 100) ++ "." ++ pad2 (m % 100)

/-- The prefix predicate: the string `s` starts with the prefix `p`,
stated on the underlying character lists. -/
def beginsWith (p s : String) : Prop := p.data <+: s.data

instance (p s : String) : Decidable (beginsWith p s) := by
  unfold beginsWith; infer_instance

/-! ## engine_nse.py : calculate_rsi -/

/-- The function `calculate_rsi(prices, period=14)` from `engine_nse.py`.
Walks consecutive differences, splits them into gains and losses, averages
the trailing `period` of each, and applies the Wilder formula.  Returns the
neutral default 50 when fewer than `period+1` samples exist, and 100 when
the average loss is exactly zero. -/
def calculate_rsi (prices : List ℚ) (period : ℕ) : ℚ :=
  if prices.length < period + 1 then 50
  else
    let diffs := (List.range (prices.length - 1)).map
      (fun i => prices.getD (i+1) 0 - prices.getD i 0)
    let gains := diffs.map (fun c => if 0 < c then c else 0)
    let losses := diffs.map (fun c => if 0 < c then 0 else |c|)
    let avg_gain := (gains.drop (gains.length - period)).sum / (period : ℚ)
    let avg_loss := (losses.drop (losses.length - period)).sum / (period : ℚ)
    if avg_loss = 0 then 100
    else
      let rs := avg_gain / avg_loss
      round2 (100 - 100 / (1 + rs))

/-! ## engine.py : data model and ATR -/

/-- One intraday OHLC sample (one row of the 5-minute DataFrame), with its
wall-clock timestamp reduced to hour and minute as used by the source. -/
structure Candle where
  high : ℚ
  low : ℚ
  close : ℚ
  hour : ℕ
  minute : ℕ
deriving Repr, DecidableEq, Inhabited

/-- The dictionary returned by `atr` in `engine.py` on success. -/
structure AtrData where
  current : Option ℚ
  expanding : Bool
deriving Repr, DecidableEq

/-- The per-row true range series: `TR = max(H-L, |H-PC|, |L-PC|)`, where the
first row has no previous close (pandas' shifted column is NaN there and the
row-wise max skips it, leaving `H-L`). -/
def trueRanges (df : List Candle) : List ℚ :=
  (List.range df.length).map (fun i =>
    let c := df.getD i default
    if i = 0 then c.high - c.low
    else
      let pc := (df.getD (i-1) default).close
      max (c.high - c.low) (max |c.high - pc| |c.low - pc|))

/-- The function `atr(df, period=14)` from `engine.py`: `None` when fewer than `period+1`
rows exist; otherwise the last and second-to-last values of the rolling
`period`-mean of the true range, with `expanding = current > previous`. -/
def atr (df : List Candle) (period : ℕ) : Option AtrData :=
  if df.length < period + 1 then none
  else
    let tr := trueRanges df
    let cur := (tr.drop (tr.length - period)).sum / (period : ℚ)
    let prev := ((tr.take (tr.length - 1)).drop (tr.length - 1 - period)).sum / (period : ℚ)
    some { current := some (round2 cur), expanding := decide (prev < cur) }

/-! ## engine.py : the multi-trade ORB scan loop (`analyze_orb`) -/

/-- Direction of a breakout (`"CALL"` / `"PUT"` in the source). -/
inductive Direction where
  | CALL
  | PUT
deriving Repr, DecidableEq, Inhabited

/-- Breakout strength tier.  The source initialises the variable to
`"NONE"` and only ever assigns `"STRONG"` or `"MODERATE"`; the dead
`"WEAK"` comparison in the validation chain is kept for fidelity. -/
inductive Strength where
  | STRONG
  | MODERATE
  | WEAK
deriving Repr, DecidableEq, Inhabited

/-- Yesterday's levels (`get_previous_day_levels`, an external fetch). -/
structure PrevDay where
  high : ℚ
  low : ℚ
  close : ℚ
deriving Repr, DecidableEq

/-- The trade dictionary built by `analyze_orb` for each accepted breakout
(string/UI fields and the externally fetched option-strike recommendation
omitted; `idx` is the scan index of the breakout candle, whose timestamp
is the source's `entry_time`). -/
structure Trade where
  tradeNumber : ℕ
  idx : ℕ
  hour : ℕ
  entryPrice : ℚ
  direction : Direction
  strength : Strength
  distance : ℚ
  target : ℚ
  stopLoss : ℚ
  riskReward : ℚ
  confidence : ℕ
deriving Repr, DecidableEq, Inhabited

/-- The inputs of the scan loop that are fixed across iterations. -/
structure ScanCfg where
  orbHigh : ℚ
  orbLow : ℚ
  orbRange : ℚ
  vixSafe : Bool
  expanding : Bool
  prevDay : Option PrevDay
  maxTrades : ℕ
  cooldown : ℕ
deriving Repr, DecidableEq

/-- Breakout detection for one candle close (`engine.py` lines 297-322):
a CALL (resp. PUT) candidate when the close exceeds `orb_high` (resp.
undercuts `orb_low`) by more than `0.2 * orb_range`, classified STRONG
above `0.5 * orb_range` and MODERATE otherwise; no candidate at all when
the distance is at most `0.2 * orb_range`. -/
def classify (close orbHigh orbLow orbRange : ℚ) : Option (Direction × Strength) :=
  if orbHigh < close then
    let d := close - orbHigh
    if orbRange * 0.2 < d then
      some (.CALL, if orbRange * 0.5 < d then .STRONG else .MODERATE)
    else none
  else if close < orbLow then
    let d := orbLow - close
    if orbRange * 0.2 < d then
      some (.PUT, if orbRange * 0.5 < d then .STRONG else .MODERATE)
    else none
  else none

/-- Spot target and stop for an accepted breakout (lines 388-393):
projected `1.5 ×` the range beyond the broken level, stop `0.2 ×` the
range back inside it. -/
def tradeLevels (dir : Direction) (cfg : ScanCfg) : ℚ × ℚ :=
  match dir with
  | .CALL => (cfg.orbHigh + cfg.orbRange * 1.5, cfg.orbHigh - cfg.orbRange * 0.2)
  | .PUT => (cfg.orbLow - cfg.orbRange * 1.5, cfg.orbLow + cfg.orbRange * 0.2)

/-- Previous-day confluence bonus (lines 378-384): +5 confidence when a
CALL entry is above yesterday's high or a PUT entry below yesterday's low. -/
def confluenceBonus (dir : Direction) (entry : ℚ) (prevDay : Option PrevDay) : ℕ :=
  match prevDay with
  | none => 0
  | some p =>
    match dir with
    | .CALL => if p.high < entry then 5 else 0
    | .PUT => if entry < p.low then 5 else 0

/-- The trade record assembled for an accepted breakout at scan index `i`
when `n` trades were already accepted. -/
def mkTrade (cfg : ScanCfg) (i : ℕ) (hour : ℕ) (entryPrice : ℚ)
    (dir : Direction) (strength : Strength) (dist : ℚ) (n : ℕ) : Trade :=
  let target := (tradeLevels dir cfg).1
  let stopLoss := (tradeLevels dir cfg).2
  { tradeNumber := n + 1
    idx := i
    hour := hour
    entryPrice := entryPrice
    direction := dir
    strength := strength
    distance := round2 dist
    target := target
    stopLoss := stopLoss
    riskReward := |target - entryPrice| / |entryPrice - stopLoss|
    confidence := (if strength = .STRONG then 85 else 70)
      + confluenceBonus dir entryPrice cfg.prevDay }

/-- What one iteration of the scan loop does at index `i`. -/
inductive StepRes where
  | skip
  | halt
  | reject
  | accept (t : Trade)
  | fail (msg : String)
deriving Repr, DecidableEq

/-- One iteration of the scan loop of `analyze_orb` (lines 277-475), for
index `i` with `numTrades` trades already accepted: skip while inside the
cooldown window, break once the trade cap is reached, otherwise detect and
validate a breakout.  The risk/reward division `abs(target - entry) /
abs(entry - stop)` has no guard: when the entry equals the stop the Python
float division raises `ZeroDivisionError("float division by zero")`,
modelled as `.fail`. -/
def scanStep (cfg : ScanCfg) (hist : List Candle) (i : ℕ) (cooldownUntil : ℤ)
    (numTrades : ℕ) : StepRes :=
  if (i : ℤ) ≤ cooldownUntil then .skip
  else if cfg.maxTrades ≤ numTrades then .halt
  else
    let candle := hist.getD i default
    let entryPrice := (hist.getD (i-1) default).close
    match classify candle.close cfg.orbHigh cfg.orbLow cfg.orbRange with
    | none => .reject
    | some (dir, strength) =>
      if 14 ≤ candle.hour ∧ strength ≠ .STRONG then .reject
      else if ¬ cfg.vixSafe then .reject
      else if strength = .WEAK then .reject
      else if ¬ cfg.expanding then .reject
      else
        let stopLoss := (tradeLevels dir cfg).2
        if entryPrice = stopLoss then .fail "float division by zero"
        else
          let dist := match dir with
            | .CALL => candle.close - cfg.orbHigh
            | .PUT => cfg.orbLow - candle.close
          .accept (mkTrade cfg i candle.hour entryPrice dir strength dist numTrades)

/-- The scan loop `for i in range(6, len(hist) - 1)` of `analyze_orb`,
by recursion on a fuel bound (`scanOrb` passes `hist.length`, which is
more than enough iterations; the loop itself exits at `len(hist) - 1`).
An accepted trade is appended and starts a cooldown until `i + cooldown`;
an unguarded zero division aborts the whole loop exceptionally. -/
def scanGo (cfg : ScanCfg) (hist : List Candle) :
    ℕ → ℕ → ℤ → List Trade → Except String (List Trade)
  | 0, _, _, acc => .ok acc
  | fuel + 1, i, cooldownUntil, acc =>
    if i < hist.length - 1 then
      match scanStep cfg hist i cooldownUntil acc.length with
      | .skip => scanGo cfg hist fuel (i+1) cooldownUntil acc
      | .halt => .ok acc
      | .reject => scanGo cfg hist fuel (i+1) cooldownUntil acc
      | .accept t => scanGo cfg hist fuel (i+1) ((i + cfg.cooldown : ℕ) : ℤ) (acc ++ [t])
      | .fail msg => .error msg
    else .ok acc

/-- The full scan: start at index 6 with no cooldown (`cooldown_until = -1`)
and no trades. -/
def scanOrb (cfg : ScanCfg) (hist : List Candle) : Except String (List Trade) :=
  scanGo cfg hist hist.length 6 (-1) []

/-- pandas `between_time("09:15", "15:30")` membership (inclusive bounds). -/
def inMarketHours (c : Candle) : Bool :=
  decide (555 ≤ c.hour * 60 + c.minute ∧ c.hour * 60 + c.minute ≤ 930)

/-- pandas `between_time("09:15", "09:45")` membership (inclusive bounds). -/
def inOpeningWindow (c : Candle) : Bool :=
  decide (555 ≤ c.hour * 60 + c.minute ∧ c.hour * 60 + c.minute ≤ 585)

/-- The result dictionary of `analyze_orb`, restricted to the fields the
claims are about (`status`, `trades`, `error`). -/
structure OrbResult where
  status : String
  trades : List Trade
  error : Option String
deriving Repr, DecidableEq

/-- The scan inputs assembled by `analyze_orb` from the (market-hours
filtered) session: the opening range from the 09:15-09:45 window, the ATR
expansion flag (`atr(hist, 14) or {"expanding": False, ...}`), and the
externally supplied VIX safety flag and previous-day levels. -/
def orbCfg (hist : List Candle) (vixSafe : Bool) (prevDay : Option PrevDay)
    (max_trades_per_day cooldown_candles : ℕ) : ScanCfg :=
  let opening := hist.filter inOpeningWindow
  let orbHigh := opening.foldl (fun m c => max m c.high) (opening.headD default).high
  let orbLow := opening.foldl (fun m c => min m c.low) (opening.headD default).low
  let atrData := (atr hist 14).getD { current := none, expanding := false }
  { orbHigh := orbHigh
    orbLow := orbLow
    orbRange := orbHigh - orbLow
    vixSafe := vixSafe
    expanding := atrData.expanding
    prevDay := prevDay
    maxTrades := max_trades_per_day
    cooldown := cooldown_candles }

/-- The function `analyze_orb` from `engine.py`, from the point where today's intraday
candles have been fetched (`raw`); the VIX safety flag and yesterday's
levels are externally fetched inputs.  Filters to market hours, requires at
least 10 candles and a formed opening range of at least 7 candles, computes
the opening range and the ATR expansion flag, then runs the breakout scan;
an exception escaping the scan (the unguarded risk/reward zero division)
is caught by the outer handler, which returns status `ERROR` with an empty
trade list. -/
def analyze_orb (raw : List Candle) (vixSafe : Bool) (prevDay : Option PrevDay)
    (max_trades_per_day cooldown_candles : ℕ) : OrbResult :=
  let hist := raw.filter inMarketHours
  if hist.length < 10 then
    { status := "NO_DATA", trades := [], error := some "Not enough data" }
  else if (hist.filter inOpeningWindow).length < 7 then
    { status := "WAITING", trades := [], error := none }
  else
    match scanOrb (orbCfg hist vixSafe prevDay max_trades_per_day cooldown_candles) hist with
    | .error e => { status := "ERROR", trades := [], error := some e }
    | .ok ts =>
      { status := if 0 < ts.length then "ACTIVE" else "NO_SIGNALS"
        trades := ts
        error := none }

/-! ## engine_nse.py : analyze_symbol -/

/-- Open interest of one option-chain row near the money (`CE`/`PE`
`openInterest`, defaulting to 0 when a leg is absent). -/
structure StrikeOI where
  ceOI : ℕ
  peOI : ℕ
deriving Repr, DecidableEq

/-- The `records` object of the NSE option-chain response.
`underlyingValue` defaults to 0 when the key is missing, which the source
treats as falsy (missing price). -/
structure NseRecords where
  underlyingValue : ℚ
  data : List StrikeOI
deriving Repr, DecidableEq

/-- The output record of `analyze_symbol` (the wall-clock `time` field is
omitted; `error` is `none` when the dictionary has no `"error"` key). -/
structure NseRecord where
  side : String
  entry : String
  exitStr : String
  price : String
  pcr : Option ℚ
  vix : Option ℚ
  error : Option String
deriving Repr, DecidableEq

/-- The side/entry/exit triple decided from the put/call ratio
(`engine_nse.py` lines 206-224). -/
def pcrSignal (pcr currentPrice : ℚ) : String × String × String :=
  if 1.2 < pcr then
    ("BUY CALL (CE)", "Above " ++ fmt2 currentPrice, "Target " ++ fmt2 (currentPrice + 100))
  else if pcr < 0.8 then
    ("BUY PUT (PE)", "Below " ++ fmt2 currentPrice, "Target " ++ fmt2 (currentPrice - 100))
  else
    ("AVOID", "", "")

/-- The volatility qualifier of `analyze_symbol` (lines 227-230):
`if vix and vix > 20: side += f" | High Volatility (VIX: {vix:.2f})"`.
A `None` or zero (falsy) VIX reading appends nothing. -/
def applyVixNse (side : String) (vix : Option ℚ) : String :=
  match vix with
  | some v => if 20 < v then side ++ (" | High Volatility (VIX: " ++ fmt2 v ++ ")") else side
  | none => side

/-- The function `analyze_symbol` from `engine_nse.py`, from the point where the
option-chain fetch and the VIX fetch have returned (`none` models a failed
fetch or a response without `records`).  Missing option data or a falsy
underlying price yield early ERROR records (which carry no `"error"` key);
otherwise the PCR over the first 10 rows decides the side, and a high VIX
appends a non-blocking qualifier. -/
def analyze_symbol (optionData : Option NseRecords) (vix : Option ℚ) : NseRecord :=
  match optionData with
  | none =>
    { side := "ERROR - No Data", entry := "", exitStr := "", price := "N/A"
      pcr := none, vix := none, error := none }
  | some records =>
    if records.underlyingValue = 0 then
      { side := "ERROR - No Price", entry := "", exitStr := "", price := "N/A"
        pcr := none, vix := none, error := none }
    else
      let currentPrice := records.underlyingValue
      let pts := records.data.take 10
      let totalCallOI := (pts.map StrikeOI.ceOI).sum
      let totalPutOI := (pts.map StrikeOI.peOI).sum
      let pcr := if 0 < totalCallOI then round2 ((totalPutOI : ℚ) / (totalCallOI : ℚ)) else 1
      let sig := pcrSignal pcr currentPrice
      { side := applyVixNse sig.1 vix
        entry := sig.2.1
        exitStr := sig.2.2
        price := "₹" ++ fmt2 currentPrice
        pcr := some pcr
        vix := match vix with
          | some v => if v = 0 then none else some v
          | none => none
        error := none }

/-! ## engine_quickfix.py : decision -/

/-- The output record of `decision` (wall-clock `time` omitted). -/
structure QfRecord where
  side : String
  entry : String
  exitStr : String
  error : Option String
deriving Repr, DecidableEq

/-- The missing-data report of `decision` (lines 170-174): the price list
is missing when the fetch failed or returned an empty list (`if not
closes`), the indicators when their fetch returned `None`. -/
def missingInputs (closes : Option (List ℚ)) (ema rsi macd : Option ℚ) : List String :=
  (if (closes.getD []).isEmpty then ["price"] else [])
    ++ (if ema.isNone then ["EMA"] else [])
    ++ (if rsi.isNone then ["RSI"] else [])
    ++ (if macd.isNone then ["MACD"] else [])

/-- The side/entry/exit triple of `decision`'s trading logic
(`engine_quickfix.py` lines 194-205). -/
def qfSignal (last ema rsi macd : ℚ) (news : ℤ) : String × String × String :=
  if ema < last ∧ 55 < rsi ∧ 0 < macd ∧ 0 ≤ news then
    ("BUY CALL (CE)", "Above " ++ toString last, "Near " ++ toString (last + 80))
  else if last < ema ∧ rsi < 45 ∧ macd < 0 ∧ news ≤ 0 then
    ("BUY PUT (PE)", "Below " ++ toString last, "Near " ++ toString (last - 80))
  else
    ("AVOID", "", "")

/-- The volatility qualifier of `decision` (lines 207-209):
`if vix and vix > 20: side += " | High Volatility"`. -/
def applyVixQf (side : String) (vix : Option ℚ) : String :=
  match vix with
  | some v => if 20 < v then side ++ " | High Volatility" else side
  | none => side

/-- The function `decision` from `engine_quickfix.py`, from the point where all five
fetches have returned (`none` models a failed fetch; the news score
defaults to 0 on failure inside `get_news_sentiment`).  Any missing
required input yields an ERROR record carrying an error string; otherwise
the threshold rule on the last close, EMA, RSI, MACD and news decides the
side, and a high VIX appends a non-blocking qualifier. -/
def decision (closes : Option (List ℚ)) (ema rsi macd vix : Option ℚ)
    (news : ℤ) : QfRecord :=
  let missing := missingInputs closes ema rsi macd
  if missing.isEmpty then
    let last := (closes.getD []).getLastD 0
    let sig := qfSignal last (ema.getD 0) (rsi.getD 0) (macd.getD 0) news
    { side := applyVixQf sig.1 vix
      entry := sig.2.1
      exitStr := sig.2.2
      error := none }
  else
    { side := "ERROR - Missing: " ++ String.intercalate ", " missing
      entry := ""
      exitStr := ""
      error := some "API data unavailable" }

/-! ## Concrete sessions used in the scenario parts of the claims

All sessions are 16 five-minute candles starting at 09:15, so the market-
hours filter keeps every candle and the opening window (09:15-09:45) holds
exactly the first 7.  The opening range is 90-100 (range 10), so a close of
106 is a STRONG CALL breakout (distance 6 > 5 = 0.5 × range) with target
115 and stop 98, and the final candle's large true range makes the ATR
expand. -/

/-- Candle `k` of a synthetic session: timestamp 09:15 + 5·k minutes. -/
def sessionCandle (k : ℕ) (high low close : ℚ) : Candle :=
  { high := high, low := low, close := close
    hour := (555 + 5 * k) / 60, minute := (555 + 5 * k) % 60 }

/-- A 16-candle session built from a list of `(high, low, close)` rows. -/
def mkSession (rows : List (ℚ × ℚ × ℚ)) : List Candle :=
  (List.range rows.length).map (fun k =>
    let r := rows.getD k (0, 0, 0)
    sessionCandle k r.1 r.2.1 r.2.2)

/-- Session with qualifying STRONG breakouts at samples 10, 11 and 13
(closes 106) and no other breakout; candle 9 closes at 95. -/
def sessionA : List Candle :=
  mkSession
    [(100, 90, 95), (100, 90, 95), (100, 90, 95), (100, 90, 95),
     (100, 90, 95), (100, 90, 95), (100, 90, 95),
     (96, 94, 95), (96, 94, 95), (96, 94, 95),
     (106, 95, 106), (106, 95, 106), (96, 94, 95), (106, 95, 106),
     (96, 94, 95), (140, 90, 95)]

/-- Session with exactly one qualifying breakout, at sample 10; candle 9
closes at 96 (so the trade's entry price pins down which candle it reads). -/
def sessionB : List Candle :=
  mkSession
    [(100, 90, 95), (100, 90, 95), (100, 90, 95), (100, 90, 95),
     (100, 90, 95), (100, 90, 95), (100, 90, 95),
     (96, 94, 95), (96, 94, 95), (96, 96, 96),
     (106, 95, 106), (96, 94, 95), (96, 94, 95), (96, 94, 95),
     (96, 94, 95), (140, 90, 95)]

/-- Session with an accepted breakout at sample 10 followed by a breakout
at sample 13 whose entry price (candle 12's close, 98) equals the CALL
stop-loss level 98, triggering the unguarded zero division. -/
def sessionC : List Candle :=
  mkSession
    [(100, 90, 95), (100, 90, 95), (100, 90, 95), (100, 90, 95),
     (100, 90, 95), (100, 90, 95), (100, 90, 95),
     (96, 94, 95), (96, 94, 95), (96, 94, 95),
     (106, 95, 106), (96, 94, 95), (98, 94, 98), (106, 95, 106),
     (96, 94, 95), (140, 90, 95)]

/-- Variant of `sessionC` with the offending breakout candle 13 flattened to 95: the
same session up to sample 12, now free of the zero division. -/
def sessionC2 : List Candle :=
  mkSession
    [(100, 90, 95), (100, 90, 95), (100, 90, 95), (100, 90, 95),
     (100, 90, 95), (100, 90, 95), (100, 90, 95),
     (96, 94, 95), (96, 94, 95), (96, 94, 95),
     (106, 95, 106), (96, 94, 95), (98, 94, 98), (96, 94, 95),
     (96, 94, 95), (140, 90, 95)]

/-! ## Properties of one scan iteration and of the scan loop -/

/-- Everything an accepted trade satisfies by construction: it is stamped
with the scan index, its entry price is the previous candle's close, it was
produced outside a cooldown window and below the trade cap, and its entry
price differs from its stop (otherwise the iteration fails instead). -/
lemma scanStep_accept_facts {cfg : ScanCfg} {hist : List Candle} {i : ℕ}
    {cu : ℤ} {n : ℕ} {t : Trade}
    (h : scanStep cfg hist i cu n = .accept t) :
    t.idx = i ∧ t.entryPrice = (hist.getD (i-1) default).close ∧
      cu < (i : ℤ) ∧ n < cfg.maxTrades ∧ t.entryPrice ≠ t.stopLoss ∧
      t.tradeNumber = n + 1 := by
  simp only [scanStep] at h
  split at h
  · exact absurd h (by simp)
  split at h
  · exact absurd h (by simp)
  split at h
  · exact absurd h (by simp)
  split at h
  · exact absurd h (by simp)
  split at h
  · exact absurd h (by simp)
  split at h
  · exact absurd h (by simp)
  split at h
  · exact absurd h (by simp)
  split at h
  · exact absurd h (by simp)
  rename_i hcu hmax _ _ _ _ _ _ hne
  cases h
  refine ⟨rfl, rfl, by omega, by omega, ?_, rfl⟩
  simpa [mkTrade] using hne

lemma scanStep_skip {cfg : ScanCfg} {hist : List Candle} {i : ℕ} {cu : ℤ} {n : ℕ}
    (h1 : (i : ℤ) ≤ cu) : scanStep cfg hist i cu n = .skip := by
  simp [scanStep, h1]

lemma scanStep_halt {cfg : ScanCfg} {hist : List Candle} {i : ℕ} {cu : ℤ} {n : ℕ}
    (h1 : cu < (i : ℤ)) (h2 : cfg.maxTrades ≤ n) : scanStep cfg hist i cu n = .halt := by
  simp [scanStep, h2, not_le.mpr h1]

lemma scanStep_reject_of_classify_none {cfg : ScanCfg} {hist : List Candle} {i : ℕ}
    {cu : ℤ} {n : ℕ} (h1 : cu < (i : ℤ)) (h2 : n < cfg.maxTrades)
    (hc : classify (hist.getD i default).close cfg.orbHigh cfg.orbLow cfg.orbRange = none) :
    scanStep cfg hist i cu n = .reject := by
  simp only [scanStep]
  rw [if_neg (not_le.mpr h1), if_neg (not_le.mpr h2), hc]

lemma scanGo_zero (cfg : ScanCfg) (hist : List Candle) (i : ℕ) (cu : ℤ) (acc : List Trade) :
    scanGo cfg hist 0 i cu acc = .ok acc := rfl

lemma scanGo_succ_out (cfg : ScanCfg) (hist : List Candle) {i : ℕ} (fuel : ℕ) (cu : ℤ)
    (acc : List Trade) (hi : ¬ i < hist.length - 1) :
    scanGo cfg hist (fuel + 1) i cu acc = .ok acc := by
  simp [scanGo, hi]

lemma scanGo_skip_step {cfg : ScanCfg} {hist : List Candle} {i : ℕ} {cu : ℤ}
    {acc : List Trade} (fuel : ℕ) (hi : i < hist.length - 1)
    (hs : scanStep cfg hist i cu acc.length = .skip) :
    scanGo cfg hist (fuel + 1) i cu acc = scanGo cfg hist fuel (i+1) cu acc := by
  simp [scanGo, hi, hs]

lemma scanGo_halt_step {cfg : ScanCfg} {hist : List Candle} {i : ℕ} {cu : ℤ}
    {acc : List Trade} (fuel : ℕ) (hi : i < hist.length - 1)
    (hs : scanStep cfg hist i cu acc.length = .halt) :
    scanGo cfg hist (fuel + 1) i cu acc = .ok acc := by
  simp [scanGo, hi, hs]

lemma scanGo_reject_step {cfg : ScanCfg} {hist : List Candle} {i : ℕ} {cu : ℤ}
    {acc : List Trade} (fuel : ℕ) (hi : i < hist.length - 1)
    (hs : scanStep cfg hist i cu acc.length = .reject) :
    scanGo cfg hist (fuel + 1) i cu acc = scanGo cfg hist fuel (i+1) cu acc := by
  simp [scanGo, hi, hs]

lemma scanGo_accept_step {cfg : ScanCfg} {hist : List Candle} {i : ℕ} {cu : ℤ}
    {acc : List Trade} {t : Trade} (fuel : ℕ) (hi : i < hist.length - 1)
    (hs : scanStep cfg hist i cu acc.length = .accept t) :
    scanGo cfg hist (fuel + 1) i cu acc
      = scanGo cfg hist fuel (i+1) ((i + cfg.cooldown : ℕ) : ℤ) (acc ++ [t]) := by
  simp [scanGo, hi, hs]

lemma scanGo_fail_step {cfg : ScanCfg} {hist : List Candle} {i : ℕ} {cu : ℤ}
    {acc : List Trade} {msg : String} (fuel : ℕ) (hi : i < hist.length - 1)
    (hs : scanStep cfg hist i cu acc.length = .fail msg) :
    scanGo cfg hist (fuel + 1) i cu acc = .error msg := by
  simp [scanGo, hi, hs]

/-- Any per-trade property established by `scanStep` acceptance is carried
from the accumulator to the final trade list. -/
lemma scanGo_ok_all (cfg : ScanCfg) (hist : List Candle) (P : Trade → Prop)
    (hstep : ∀ i cu n t, scanStep cfg hist i cu n = .accept t → P t) :
    ∀ (fuel i : ℕ) (cu : ℤ) (acc res : List Trade),
      scanGo cfg hist fuel i cu acc = .ok res →
      (∀ t ∈ acc, P t) → ∀ t ∈ res, P t := by
  intro fuel
  induction fuel with
  | zero =>
    intro i cu acc res h hacc
    rw [scanGo_zero] at h
    cases h
    exact hacc
  | succ fuel ih =>
    intro i cu acc res h hacc
    by_cases hi : i < hist.length - 1
    · rw [scanGo] at h
      rw [if_pos hi] at h
      rcases hs : scanStep cfg hist i cu acc.length with _ | _ | _ | t | msg <;> rw [hs] at h
      · exact ih _ _ _ _ h hacc
      · cases h; exact hacc
      · exact ih _ _ _ _ h hacc
      · refine ih _ _ _ _ h ?_
        intro x hx
        rcases List.mem_append.mp hx with hx | hx
        · exact hacc x hx
        · rcases List.mem_singleton.mp hx with rfl
          exact hstep _ _ _ _ hs
      · exact absurd h (by simp)
    · rw [scanGo_succ_out cfg hist fuel cu acc hi] at h
      cases h
      exact hacc

/-- The cooldown-spacing invariant: when every accumulated trade's index
is at least `cooldown` samples before the current cooldown horizon, the
final trade list is pairwise separated by more than `cooldown` samples. -/
lemma scanGo_ok_pairwise (cfg : ScanCfg) (hist : List Candle) :
    ∀ (fuel i : ℕ) (cu : ℤ) (acc res : List Trade),
      scanGo cfg hist fuel i cu acc = .ok res →
      (∀ t ∈ acc, (t.idx : ℤ) + cfg.cooldown ≤ cu) →
      acc.Pairwise (fun a b => a.idx + cfg.cooldown < b.idx) →
      res.Pairwise (fun a b => a.idx + cfg.cooldown < b.idx) := by
  intro fuel
  induction fuel with
  | zero =>
    intro i cu acc res h hcu hpw
    rw [scanGo_zero] at h
    cases h
    exact hpw
  | succ fuel ih =>
    intro i cu acc res h hcu hpw
    by_cases hi : i < hist.length - 1
    · rw [scanGo] at h
      rw [if_pos hi] at h
      rcases hs : scanStep cfg hist i cu acc.length with _ | _ | _ | t | msg <;> rw [hs] at h
      · exact ih _ _ _ _ h hcu hpw
      · cases h; exact hpw
      · exact ih _ _ _ _ h hcu hpw
      · obtain ⟨hidx, -, hcui, -, -, -⟩ := scanStep_accept_facts hs
        refine ih _ _ _ _ h ?_ ?_
        · intro x hx
          rcases List.mem_append.mp hx with hx | hx
          · have := hcu x hx
            push_cast
            omega
          · rcases List.mem_singleton.mp hx with rfl
            rw [hidx]
            push_cast
            omega
        · rw [List.pairwise_append]
          refine ⟨hpw, List.pairwise_singleton _ _, ?_⟩
          intro a ha b hb
          rcases List.mem_singleton.mp hb with rfl
          have := hcu a ha
          rw [hidx]
          omega
      · exact absurd h (by simp)
    · rw [scanGo_succ_out cfg hist fuel cu acc hi] at h
      cases h
      exact hpw

/-- The trade cap is never exceeded: the final list is no longer than
`maxTrades` when the accumulator was not. -/
lemma scanGo_ok_length (cfg : ScanCfg) (hist : List Candle) :
    ∀ (fuel i : ℕ) (cu : ℤ) (acc res : List Trade),
      scanGo cfg hist fuel i cu acc = .ok res →
      acc.length ≤ cfg.maxTrades →
      res.length ≤ cfg.maxTrades := by
  intro fuel
  induction fuel with
  | zero =>
    intro i cu acc res h hlen
    rw [scanGo_zero] at h
    cases h
    exact hlen
  | succ fuel ih =>
    intro i cu acc res h hlen
    by_cases hi : i < hist.length - 1
    · rw [scanGo] at h
      rw [if_pos hi] at h
      rcases hs : scanStep cfg hist i cu acc.length with _ | _ | _ | t | msg <;> rw [hs] at h
      · exact ih _ _ _ _ h hlen
      · cases h; exact hlen
      · exact ih _ _ _ _ h hlen
      · obtain ⟨-, -, -, hmax, -, -⟩ := scanStep_accept_facts hs
        refine ih _ _ _ _ h ?_
        simp only [List.length_append, List.length_singleton]
        omega
      · exact absurd h (by simp)
    · rw [scanGo_succ_out cfg hist fuel cu acc hi] at h
      cases h
      exact hlen

/-- C1: in every session scanned by `analyze_orb`, the emitted trades are
separated by more than `cooldown_candles` samples: a trade accepted at
sample `i` suppresses samples `i+1 .. i+cooldown`; concretely, with
qualifying breakouts at samples 10, 11 and 13 and cooldown 2, exactly the
breakouts at 10 and 13 become trades. -/
theorem orb_cooldown_spacing :
    (∀ (raw : List Candle) (vixSafe : Bool) (prevDay : Option PrevDay)
        (max_trades_per_day cooldown_candles : ℕ),
      ((analyze_orb raw vixSafe prevDay max_trades_per_day cooldown_candles).trades).Pairwise
        (fun a b => a.idx + cooldown_candles < b.idx))
    ∧ (analyze_orb sessionA true none 10 2).trades.map Trade.idx = [10, 13] := by
  constructor
  · intro raw v pd mt cd
    simp only [analyze_orb]
    split_ifs with h1 h2
    · simp
    · simp
    · rcases hscan : scanOrb (orbCfg (raw.filter inMarketHours) v pd mt cd) (raw.filter inMarketHours)
        with e | ts
      · simp
      · unfold scanOrb at hscan
        have hpw := scanGo_ok_pairwise (orbCfg (raw.filter inMarketHours) v pd mt cd)
          (raw.filter inMarketHours) (raw.filter inMarketHours).length 6 (-1) [] ts hscan
          (by simp) List.Pairwise.nil
        simpa [orbCfg] using hpw
  · norm_num +decide [analyze_orb, orbCfg, sessionA, mkSession, sessionCandle, inMarketHours,
      inOpeningWindow, atr, trueRanges, List.range_succ, round2, roundHalfEven, scanOrb, scanGo,
      scanStep, classify, mkTrade, tradeLevels, confluenceBonus]

/-- C2: every trade's entry price is the close of the sample immediately
preceding the breakout sample; concretely, the single breakout of
`sessionB` at sample 10 enters at candle 9's close, 96. -/
theorem orb_entry_is_previous_close :
    (∀ (raw : List Candle) (vixSafe : Bool) (prevDay : Option PrevDay)
        (max_trades_per_day cooldown_candles : ℕ) (t : Trade),
      t ∈ (analyze_orb raw vixSafe prevDay max_trades_per_day cooldown_candles).trades →
      t.entryPrice = ((raw.filter inMarketHours).getD (t.idx - 1) default).close)
    ∧ (analyze_orb sessionB true none 10 2).trades.map (fun t => (t.idx, t.entryPrice)) = [(10, 96)]
    ∧ (sessionB.getD 9 default).close = 96 := by
  refine ⟨?_, ?_, ?_⟩
  · intro raw v pd mt cd t ht
    simp only [analyze_orb] at ht
    split_ifs at ht with h1 h2
    · simp at ht
    · simp at ht
    · rcases hscan : scanOrb (orbCfg (raw.filter inMarketHours) v pd mt cd) (raw.filter inMarketHours)
        with e | ts <;> rw [hscan] at ht
      · simp at ht
      · unfold scanOrb at hscan
        refine scanGo_ok_all (orbCfg (raw.filter inMarketHours) v pd mt cd)
          (raw.filter inMarketHours)
          (fun t => t.entryPrice = ((raw.filter inMarketHours).getD (t.idx - 1) default).close)
          ?_ _ 6 (-1) [] ts hscan (by simp) t ht
        intro i cu n t' hacc
        obtain ⟨hidx, hentry, -, -, -, -⟩ := scanStep_accept_facts hacc
        rw [hidx, hentry]
  · norm_num +decide [analyze_orb, orbCfg, sessionB, mkSession, sessionCandle, inMarketHours,
      inOpeningWindow, atr, trueRanges, List.range_succ, round2, roundHalfEven, scanOrb, scanGo,
      scanStep, classify, mkTrade, tradeLevels, confluenceBonus]
  · norm_num [sessionB, mkSession, sessionCandle, List.range_succ]

/-- C4: the scanner emits at most `max_trades_per_day` trades, and once the
cap is reached (outside a cooldown window) the loop breaks, examining no
further samples. -/
theorem orb_trade_cap :
    (∀ (raw : List Candle) (vixSafe : Bool) (prevDay : Option PrevDay)
        (max_trades_per_day cooldown_candles : ℕ),
      ((analyze_orb raw vixSafe prevDay max_trades_per_day cooldown_candles).trades).length
        ≤ max_trades_per_day)
    ∧ (∀ (cfg : ScanCfg) (hist : List Candle) (fuel i : ℕ) (cu : ℤ) (acc : List Trade),
        i < hist.length - 1 → cu < (i : ℤ) → cfg.maxTrades ≤ acc.length →
        scanGo cfg hist (fuel + 1) i cu acc = .ok acc) := by
  constructor
  · intro raw v pd mt cd
    simp only [analyze_orb]
    split_ifs with h1 h2
    · simp
    · simp
    · rcases hscan : scanOrb (orbCfg (raw.filter inMarketHours) v pd mt cd) (raw.filter inMarketHours)
        with e | ts
      · simp
      · unfold scanOrb at hscan
        have hlen := scanGo_ok_length (orbCfg (raw.filter inMarketHours) v pd mt cd)
          (raw.filter inMarketHours) (raw.filter inMarketHours).length 6 (-1) [] ts hscan (by simp)
        simpa [orbCfg] using hlen
  · intro cfg hist fuel i cu acc hi hcu hmax
    exact scanGo_halt_step fuel hi (scanStep_halt hcu hmax)

/-- C3: for a sample breaking out by distance `d` beyond an opening range
of size `r ≥ 0`, the breakout is STRONG exactly when `d > 0.5·r`, MODERATE
exactly when `0.2·r < d ≤ 0.5·r`, and for `d ≤ 0.2·r` the sample is
rejected — no candidate is produced, and a rejected iteration advances the
scan without touching the cooldown state. -/
theorem breakout_strength_classification :
    (∀ (close h l r : ℚ), 0 ≤ r →
      (h < close →
        ((classify close h l r = some (.CALL, .STRONG) ↔ 0.5 * r < close - h)
          ∧ (classify close h l r = some (.CALL, .MODERATE) ↔
              (0.2 * r < close - h ∧ close - h ≤ 0.5 * r))
          ∧ (close - h ≤ 0.2 * r → classify close h l r = none)))
      ∧ (close ≤ h → close < l →
        ((classify close h l r = some (.PUT, .STRONG) ↔ 0.5 * r < l - close)
          ∧ (classify close h l r = some (.PUT, .MODERATE) ↔
              (0.2 * r < l - close ∧ l - close ≤ 0.5 * r))
          ∧ (l - close ≤ 0.2 * r → classify close h l r = none))))
    ∧ (∀ (cfg : ScanCfg) (hist : List Candle) (fuel i : ℕ) (cu : ℤ) (acc : List Trade),
        i < hist.length - 1 → cu < (i : ℤ) → acc.length < cfg.maxTrades →
        classify (hist.getD i default).close cfg.orbHigh cfg.orbLow cfg.orbRange = none →
        scanGo cfg hist (fuel + 1) i cu acc = scanGo cfg hist fuel (i+1) cu acc) := by
  constructor
  · intro close h l r hr
    constructor
    · intro hcall
      simp only [classify, if_pos hcall]
      refine ⟨?_, ?_, ?_⟩
      · split_ifs with ha hb
        · exact iff_of_true rfl (by linarith)
        · refine iff_of_false (by simp) ?_
          intro hx
          exact hb (by linarith)
        · refine iff_of_false (by simp) ?_
          intro hx
          exact ha (by linarith)
      · split_ifs with ha hb
        · refine iff_of_false (by simp) ?_
          rintro ⟨-, hx⟩
          linarith
        · exact iff_of_true rfl ⟨by linarith, by linarith⟩
        · refine iff_of_false (by simp) ?_
          rintro ⟨hx, -⟩
          exact ha (by linarith)
      · intro hd
        rw [if_neg (by linarith)]
    · intro hc1 hc2
      simp only [classify, if_neg (not_lt.mpr hc1), if_pos hc2]
      refine ⟨?_, ?_, ?_⟩
      · split_ifs with ha hb
        · exact iff_of_true rfl (by linarith)
        · refine iff_of_false (by simp) ?_
          intro hx
          exact hb (by linarith)
        · refine iff_of_false (by simp) ?_
          intro hx
          exact ha (by linarith)
      · split_ifs with ha hb
        · refine iff_of_false (by simp) ?_
          rintro ⟨-, hx⟩
          linarith
        · exact iff_of_true rfl ⟨by linarith, by linarith⟩
        · refine iff_of_false (by simp) ?_
          rintro ⟨hx, -⟩
          exact ha (by linarith)
      · intro hd
        rw [if_neg (by linarith)]
  · intro cfg hist fuel i cu acc hi hcu hmax hc
    exact scanGo_reject_step fuel hi (scanStep_reject_of_classify_none hcu hmax hc)

/-- C5: with fewer than `period+1` prices, `calculate_rsi` returns exactly
the neutral default 50, whatever the prices. -/
theorem rsi_insufficient_default :
    ∀ (prices : List ℚ) (period : ℕ),
      prices.length < period + 1 → calculate_rsi prices period = 50 := by
  intro prices period h
  simp [calculate_rsi, h]

theorem rsi_insufficient_default_witness :
    ([100, 200, 50] : List ℚ).length < 14 + 1 ∧ calculate_rsi [100, 200, 50] 14 = 50 :=
  ⟨by norm_num, rsi_insufficient_default [100, 200, 50] 14 (by norm_num)⟩

/-- C6: with fewer than `period+1` OHLC samples, `atr` reports the
insufficient-data state — `None`, which the caller's
`atr(hist, 14) or {"current": None, "expanding": False, ...}` fallback
turns into a null current value and a false expansion flag — whatever the
sample values. -/
theorem atr_insufficient_data :
    ∀ (df : List Candle) (period : ℕ), df.length < period + 1 →
      atr df period = none
      ∧ ((atr df period).getD { current := none, expanding := false }).expanding = false
      ∧ ((atr df period).getD { current := none, expanding := false }).current = none := by
  intro df period h
  simp [atr, h]

theorem atr_insufficient_data_witness :
    ([⟨500, 1, 400, 10, 0⟩, ⟨900, 2, 800, 10, 5⟩] : List Candle).length < 14 + 1
    ∧ atr [⟨500, 1, 400, 10, 0⟩, ⟨900, 2, 800, 10, 5⟩] 14 = none :=
  ⟨by norm_num,
   (atr_insufficient_data [⟨500, 1, 400, 10, 0⟩, ⟨900, 2, 800, 10, 5⟩] 14 (by norm_num)).1⟩

set_option maxHeartbeats 1000000 in
/-- C10: the risk/reward ratio of an accepted trade is computed with an
unguarded division.  When a breakout passes every validation but its entry
price (the previous candle's close) equals the stop-loss level, the
iteration raises the float zero-division instead of accepting; the
exception aborts the scan, and the outer handler degrades the whole result
to status ERROR with an empty trade list.  Concretely `sessionC` (an
accepted trade at sample 10, then an entry-equals-stop breakout at
sample 13) ends as ERROR with no trades, while the same session without
the offending candle (`sessionC2`) keeps the sample-10 trade. -/
theorem orb_zero_division_degrades :
    (∀ (cfg : ScanCfg) (hist : List Candle) (i : ℕ) (cu : ℤ) (n : ℕ)
        (dir : Direction) (strength : Strength),
      cu < (i : ℤ) → n < cfg.maxTrades →
      classify (hist.getD i default).close cfg.orbHigh cfg.orbLow cfg.orbRange
        = some (dir, strength) →
      ¬(14 ≤ (hist.getD i default).hour ∧ strength ≠ .STRONG) →
      cfg.vixSafe = true → strength ≠ .WEAK → cfg.expanding = true →
      (hist.getD (i-1) default).close = (tradeLevels dir cfg).2 →
      scanStep cfg hist i cu n = .fail "float division by zero")
    ∧ (∀ (cfg : ScanCfg) (hist : List Candle) (fuel i : ℕ) (cu : ℤ)
        (acc : List Trade) (msg : String),
        i < hist.length - 1 → scanStep cfg hist i cu acc.length = .fail msg →
        scanGo cfg hist (fuel + 1) i cu acc = .error msg)
    ∧ (analyze_orb sessionC true none 10 2)
        = { status := "ERROR", trades := [], error := some "float division by zero" }
    ∧ (analyze_orb sessionC2 true none 10 2).trades.map Trade.idx = [10] := by
  refine ⟨?_, ?_, ?_, ?_⟩
  · intro cfg hist i cu n dir strength hcu hmax hc hlate hvix hweak hexp hstop
    simp only [scanStep]
    rw [if_neg (not_le.mpr hcu), if_neg (not_le.mpr hmax), hc]
    dsimp only
    rw [if_neg hlate, if_neg (by simp [hvix]), if_neg hweak, if_neg (by simp [hexp]),
      if_pos hstop]
  · intro cfg hist fuel i cu acc msg hi hs
    exact scanGo_fail_step fuel hi hs
  · norm_num +decide [analyze_orb, orbCfg, sessionC, mkSession, sessionCandle, inMarketHours,
      inOpeningWindow, atr, trueRanges, List.range_succ, round2, roundHalfEven, scanOrb, scanGo,
      scanStep, classify, mkTrade, tradeLevels, confluenceBonus]
  · norm_num +decide [analyze_orb, orbCfg, sessionC2, mkSession, sessionCandle, inMarketHours,
      inOpeningWindow, atr, trueRanges, List.range_succ, round2, roundHalfEven, scanOrb, scanGo,
      scanStep, classify, mkTrade, tradeLevels, confluenceBonus]

/-- C7: a VIX reading above the ceiling of 20 only appends a qualifier to
the side string — the directional decision (or AVOID) and the entry/exit
levels are the same as with no VIX reading or one at or below the ceiling,
so volatility alone never vetoes a trade, in both `analyze_symbol` and
`decision`. -/
theorem high_volatility_is_nonblocking :
    (∀ (r : NseRecords) (v : ℚ), r.underlyingValue ≠ 0 →
      ((20 < v →
        (analyze_symbol (some r) (some v)).side
          = (analyze_symbol (some r) none).side ++ (" | High Volatility (VIX: " ++ fmt2 v ++ ")"))
       ∧ (v ≤ 20 → (analyze_symbol (some r) (some v)).side = (analyze_symbol (some r) none).side)
       ∧ (analyze_symbol (some r) (some v)).entry = (analyze_symbol (some r) none).entry
       ∧ (analyze_symbol (some r) (some v)).exitStr = (analyze_symbol (some r) none).exitStr))
    ∧ (∀ (cs : List ℚ) (ema rsi macd v : ℚ) (news : ℤ), cs ≠ [] →
      ((20 < v →
        (decision (some cs) (some ema) (some rsi) (some macd) (some v) news).side
          = (decision (some cs) (some ema) (some rsi) (some macd) none news).side
              ++ " | High Volatility")
       ∧ (v ≤ 20 →
        (decision (some cs) (some ema) (some rsi) (some macd) (some v) news).side
          = (decision (some cs) (some ema) (some rsi) (some macd) none news).side)
       ∧ (decision (some cs) (some ema) (some rsi) (some macd) (some v) news).entry
          = (decision (some cs) (some ema) (some rsi) (some macd) none news).entry
       ∧ (decision (some cs) (some ema) (some rsi) (some macd) (some v) news).exitStr
          = (decision (some cs) (some ema) (some rsi) (some macd) none news).exitStr)) := by
  constructor
  · intro r v hv
    refine ⟨?_, ?_, ?_, ?_⟩ <;> simp only [analyze_symbol, if_neg hv, applyVixNse]
    · intro h20
      rw [if_pos h20]
    · intro h20
      rw [if_neg (not_lt.mpr h20)]
  · intro cs ema rsi macd v news h
    have hm : missingInputs (some cs) (some ema) (some rsi) (some macd) = [] := by
      simp [missingInputs, h]
    refine ⟨?_, ?_, ?_, ?_⟩ <;> simp only [decision, hm, List.isEmpty_nil, if_true, applyVixQf]
    · intro h20
      rw [if_pos h20]
    · intro h20
      rw [if_neg (not_lt.mpr h20)]

/-- C8 counterexample: with the option-chain fetch missing,
`analyze_symbol` returns a record whose side begins with ERROR but which
carries no separate error string (the source dictionary has no `"error"`
key on this path), contradicting the claim that every missing-input record
carries an error string. -/
theorem error_record_missing_error_string :
    beginsWith "ERROR" (analyze_symbol none none).side
    ∧ (analyze_symbol none none).error = none :=
  ⟨by decide, rfl⟩

/-- C8 (amended): whenever a required upstream input is unavailable, both
engines return a well-formed record whose side begins with "ERROR" (total
functions — nothing escapes the per-instrument analysis); `decision`'s
record carries a separate error string, while `analyze_symbol`'s
missing-data records carry the cause only inside the side string, with no
separate error field. -/
theorem error_states_are_isolated_records :
    (∀ (vix : Option ℚ),
      beginsWith "ERROR" (analyze_symbol none vix).side
      ∧ (analyze_symbol none vix).error = none)
    ∧ (∀ (r : NseRecords) (vix : Option ℚ), r.underlyingValue = 0 →
      beginsWith "ERROR" (analyze_symbol (some r) vix).side
      ∧ (analyze_symbol (some r) vix).error = none)
    ∧ (∀ (closes : Option (List ℚ)) (ema rsi macd vix : Option ℚ) (news : ℤ),
        missingInputs closes ema rsi macd ≠ [] →
        beginsWith "ERROR" (decision closes ema rsi macd vix news).side
        ∧ (decision closes ema rsi macd vix news).error = some "API data unavailable") := by
  refine ⟨?_, ?_, ?_⟩
  · intro vix
    have hrec : analyze_symbol none vix =
        { side := "ERROR - No Data", entry := "", exitStr := "", price := "N/A"
          pcr := none, vix := none, error := none } := rfl
    rw [hrec]
    exact ⟨by decide, rfl⟩
  · intro r vix hr
    have hrec : analyze_symbol (some r) vix =
        { side := "ERROR - No Price", entry := "", exitStr := "", price := "N/A"
          pcr := none, vix := none, error := none } := by
      simp [analyze_symbol, hr]
    rw [hrec]
    exact ⟨by decide, rfl⟩
  · intro closes ema rsi macd vix news hm
    simp only [decision]
    rcases hmm : missingInputs closes ema rsi macd with _ | ⟨a, as⟩
    · exact absurd hmm hm
    · simp only [List.isEmpty_cons, Bool.false_eq_true, if_false]
      refine ⟨?_, trivial⟩
      show "ERROR".data <+: ("ERROR - Missing: " ++ String.intercalate ", " (a :: as)).data
      rw [String.data_append]
      exact (by decide : "ERROR".data <+: "ERROR - Missing: ".data).trans
        (List.prefix_append _ _)

/-- C9 counterexample: with RSI at 75 — at or above the claimed overbought
ceiling of 70 — `decision` still produces BUY CALL (price 100 above
EMA 90, MACD positive, news neutral): the code has no RSI ceiling. -/
theorem rsi_ceiling_counterexample :
    (70 : ℚ) ≤ 75
    ∧ (decision (some [100]) (some 90) (some 75) (some 1) none 0).side = "BUY CALL (CE)" := by
  constructor
  · norm_num
  · norm_num [decision, missingInputs, qfSignal, applyVixQf]

/-- C9 (amended): `decision` produces a BUY CALL side exactly when the
last close exceeds the EMA, RSI is strictly above 55 (hence above the
lower neutral bound 50), MACD is positive and news sentiment is
non-negative; there is no overbought ceiling, so RSI at or above 70 can
still yield BUY CALL. -/
theorem buy_call_requires_bullish_gates :
    ∀ (cs : List ℚ) (ema rsi macd : ℚ) (vix : Option ℚ) (news : ℤ), cs ≠ [] →
      (beginsWith "BUY CALL"
          (decision (some cs) (some ema) (some rsi) (some macd) vix news).side
        ↔ (ema < cs.getLastD 0 ∧ 55 < rsi ∧ 0 < macd ∧ 0 ≤ news)) := by
  intro cs ema rsi macd vix news h
  have hm : missingInputs (some cs) (some ema) (some rsi) (some macd) = [] := by
    simp [missingInputs, h]
  simp only [decision, hm, List.isEmpty_nil, if_true, Option.getD_some, qfSignal, applyVixQf]
  by_cases hc1 : ema < cs.getLastD 0 ∧ 55 < rsi ∧ 0 < macd ∧ 0 ≤ news
  · rw [if_pos hc1]
    refine iff_of_true ?_ hc1
    rcases vix with _ | v
    · dsimp only
      decide
    · dsimp only
      split_ifs <;> decide
  · rw [if_neg hc1]
    refine iff_of_false ?_ hc1
    split_ifs with hc2
    · rcases vix with _ | v
      · dsimp only
        decide
      · dsimp only
        split_ifs <;> decide
    · rcases vix with _ | v
      · dsimp only
        decide
      · dsimp only
        split_ifs <;> decide

theorem orb_entry_is_previous_close_witness :
    ((analyze_orb sessionB true none 10 2).trades.headD default).entryPrice
      = ((sessionB.filter inMarketHours).getD
          (((analyze_orb sessionB true none 10 2).trades.headD default).idx - 1) default).close :=
  orb_entry_is_previous_close.1 sessionB true none 10 2 _
    (by norm_num +decide [analyze_orb, orbCfg, sessionB, mkSession, sessionCandle, inMarketHours,
      inOpeningWindow, atr, trueRanges, List.range_succ, round2, roundHalfEven, scanOrb, scanGo,
      scanStep, classify, mkTrade, tradeLevels, confluenceBonus])

theorem breakout_strength_classification_witness :
    (0 : ℚ) ≤ 10 ∧ (100 : ℚ) < 106
    ∧ classify 106 100 90 10 = some (.CALL, .STRONG) :=
  ⟨by norm_num, by norm_num,
   ((breakout_strength_classification.1 106 100 90 10 (by norm_num)).1 (by norm_num)).1.mpr
     (by norm_num)⟩

theorem orb_trade_cap_witness :
    scanGo { orbHigh := 100, orbLow := 90, orbRange := 10, vixSafe := true, expanding := true,
             prevDay := none, maxTrades := 0, cooldown := 2 } sessionA 1 6 (-1) [] = .ok [] :=
  orb_trade_cap.2 _ sessionA 0 6 (-1) []
    (by norm_num [sessionA, mkSession]) (by norm_num) (by norm_num)

theorem high_volatility_is_nonblocking_witness :
    (analyze_symbol (some ⟨100, [⟨100, 200⟩]⟩) (some 25)).side
      = (analyze_symbol (some ⟨100, [⟨100, 200⟩]⟩) none).side
          ++ (" | High Volatility (VIX: " ++ fmt2 25 ++ ")")
    ∧ (decision (some [100]) (some 90) (some 60) (some 1) (some 25) 0).side
      = (decision (some [100]) (some 90) (some 60) (some 1) none 0).side ++ " | High Volatility" :=
  ⟨(high_volatility_is_nonblocking.1 ⟨100, [⟨100, 200⟩]⟩ 25 (by norm_num)).1 (by norm_num),
   (high_volatility_is_nonblocking.2 [100] 90 60 1 25 0 (by simp)).1 (by norm_num)⟩

theorem error_states_are_isolated_records_witness :
    beginsWith "ERROR" (decision none none none none none 0).side
    ∧ (decision none none none none none 0).error = some "API data unavailable" :=
  error_states_are_isolated_records.2.2 none none none none none 0 (by simp [missingInputs])

theorem buy_call_requires_bullish_gates_witness :
    beginsWith "BUY CALL" (decision (some [100]) (some 90) (some 75) (some 1) none 0).side :=
  (buy_call_requires_bullish_gates [100] 90 75 1 none 0 (by simp)).mpr
    (by norm_num [List.getLastD])

theorem orb_zero_division_degrades_witness :
    scanStep { orbHigh := 100, orbLow := 90, orbRange := 10, vixSafe := true, expanding := true,
               prevDay := none, maxTrades := 10, cooldown := 2 } sessionC 13 (-1) 0
      = .fail "float division by zero" :=
  orb_zero_division_degrades.1 _ sessionC 13 (-1) 0 .CALL .STRONG
    (by norm_num)
    (by norm_num)
    (by norm_num [sessionC, mkSession, sessionCandle, classify, List.range_succ])
    (by norm_num [sessionC, mkSession, sessionCandle, List.range_succ])
    rfl
    (by decide)
    rfl
    (by norm_num [sessionC, mkSession, sessionCandle, tradeLevels, List.range_succ])
